import Mathlib

/-!
Shallow embedding of the Download Job Manager of `app.py` (Universal Media
Downloader): the `DownloadManager` class, its progress hook and download
worker, and the HTTP handler methods that drive them.

Modelling conventions: Python dictionaries holding job state become Lean
structures; Python floats become `ℚ`; Python `None` becomes `none`; timestamps
(`time.time()`, `datetime.now().isoformat()`) become natural numbers supplied
as explicit arguments; object identity (several names aliasing one mutable
dict) becomes an address into an explicit heap of records.
-/

/-- One job record, as created by `DownloadManager.start_download` (`app.py`
lines 114-129).  Field names follow the Python dict keys.  `total_bytes`,
`speed` and `eta` can be overwritten with Python `None` by the progress hook,
hence `Option`; `downloaded_bytes` is always written with an integer (the hook
defaults a missing value to `0`). -/
structure JobRecord where
  id : String
  url : String
  format_id : String
  filename : String
  status : String
  progress : ℚ
  started_at : Nat
  completed_at : Option Nat
  error : Option String
  filepath : Option String
  downloaded_bytes : Nat
  total_bytes : Option Nat
  speed : Option ℚ
  eta : Option Nat
  deriving DecidableEq

/-- A raw yt-dlp progress event `d` as read by the hook made in
`_create_progress_hook` (`app.py` lines 191-206).  Only the keys the hook
reads are modelled; a key absent from the event is `none`. -/
structure RawEvent where
  status : String
  downloaded_bytes : Option Nat
  total_bytes : Option Nat
  total_bytes_estimate : Option Nat
  speed : Option ℚ
  eta : Option Nat
  deriving DecidableEq

/-- Value of `d.get('total_bytes') or d.get('total_bytes_estimate')`
(`app.py` line 195): Python `or` yields the left operand when it is truthy
(a nonzero integer), otherwise the right operand unchanged (which may itself
be `None` or `0`). -/
def effectiveTotal (tb tbe : Option Nat) : Option Nat :=
  match tb with
  | some n => if n = 0 then tbe else some n
  | none => tbe

/-- The closure returned by `_create_progress_hook` (`app.py` lines 191-206),
acting on the job record it found in the registry.  It runs only for events
with status `'downloading'`.  `if total and total > 0` is Python truthiness
(non-`None`, nonzero) together with the comparison; the unknown-total branch
is `min(download.get('progress', 0) + 10, 90)`.  The four byte/rate fields
are then assigned unconditionally: `downloaded_bytes = d.get
('downloaded_bytes', 0)`, `total_bytes = total`, `speed = d.get('speed')`,
`eta = d.get('eta')`. -/
def progressHook (ev : RawEvent) (r : JobRecord) : JobRecord :=
  if ev.status = "downloading" then
    let total := effectiveTotal ev.total_bytes ev.total_bytes_estimate
    let downloaded := ev.downloaded_bytes.getD 0
    let r1 :=
      match total with
      | some t =>
          if 0 < t then { r with progress := ((downloaded : ℚ) / (t : ℚ)) * 100 }
          else { r with progress := min (r.progress + 10) 90 }
      | none => { r with progress := min (r.progress + 10) 90 }
    { r1 with downloaded_bytes := downloaded, total_bytes := total,
              speed := ev.speed, eta := ev.eta }
  else r

/-- The dict literal that `start_download` inserts into `self.downloads`
(`app.py` lines 114-129), given the generated id and the creation
timestamp `t`. -/
def mkJobRecord (id url format_id filename : String) (t : Nat) : JobRecord :=
  { id := id, url := url, format_id := format_id, filename := filename,
    status := "queued", progress := 0, started_at := t, completed_at := none,
    error := none, filepath := none, downloaded_bytes := 0,
    total_bytes := some 0, speed := some 0, eta := none }

/-- A sample freshly created record, used in concrete evaluations. -/
def sampleJob : JobRecord := mkJobRecord "a1b2c3d4" "http://x" "22" "vid" 3

/-- Claim C1 counterexample: the hook does not clamp the known-total formula.
A 'downloading' event with `downloaded_bytes = 150` against a known total of
`100` produces progress `150`, outside the claimed interval `[0, 100]`. -/
theorem C1_counterexample :
    effectiveTotal (some 100) none = some 100 ∧
      (progressHook
        { status := "downloading", downloaded_bytes := some 150,
          total_bytes := some 100, total_bytes_estimate := none,
          speed := none, eta := none } sampleJob).progress = 150 ∧
      ¬ (progressHook
        { status := "downloading", downloaded_bytes := some 150,
          total_bytes := some 100, total_bytes_estimate := none,
          speed := none, eta := none } sampleJob).progress ≤ 100 := by
  refine ⟨rfl, ?_, ?_⟩ <;> norm_num [progressHook, effectiveTotal]

/-- Claim C1 (amended): for a 'downloading' event whose effective total `t`
is known and positive, the hook sets progress to `(downloadedBytes / t) * 100`
— the claimed formula, nonnegative, but with no upper clamp (it exceeds 100
whenever `downloadedBytes > t`). -/
theorem C1_amended_known_total (ev : RawEvent) (r : JobRecord) (t : Nat)
    (hs : ev.status = "downloading")
    (ht : effectiveTotal ev.total_bytes ev.total_bytes_estimate = some t)
    (hpos : 0 < t) :
    (progressHook ev r).progress
        = ((ev.downloaded_bytes.getD 0 : ℚ) / (t : ℚ)) * 100 ∧
      0 ≤ (progressHook ev r).progress := by
  have hmain : (progressHook ev r).progress
      = ((ev.downloaded_bytes.getD 0 : ℚ) / (t : ℚ)) * 100 := by
    simp only [progressHook, hs, ht, if_true, hpos, if_pos, ite_true]
  refine ⟨hmain, ?_⟩
  rw [hmain]
  positivity

/-- Claim C1 witness: `downloadedBytes = 50`, `totalBytes = 100` gives
progress `(50 / 100) * 100 = 50`. -/
theorem C1_amended_known_total_witness :
    (progressHook
        { status := "downloading", downloaded_bytes := some 50,
          total_bytes := some 100, total_bytes_estimate := none,
          speed := none, eta := none } sampleJob).progress
        = (((some 50 : Option Nat).getD 0 : ℚ) / ((100 : Nat) : ℚ)) * 100 ∧
      0 ≤ (progressHook
        { status := "downloading", downloaded_bytes := some 50,
          total_bytes := some 100, total_bytes_estimate := none,
          speed := none, eta := none } sampleJob).progress :=
  C1_amended_known_total _ sampleJob 100 rfl rfl (by decide)

/-- Claim C3: for a 'downloading' event whose `total_bytes` and
`total_bytes_estimate` are each absent or zero, the hook sets progress to
`min(previousProgress + 10, 90)`, which never exceeds 90. -/
theorem C3_unknown_total (ev : RawEvent) (r : JobRecord)
    (hs : ev.status = "downloading")
    (htb : ev.total_bytes = none ∨ ev.total_bytes = some 0)
    (hte : ev.total_bytes_estimate = none ∨ ev.total_bytes_estimate = some 0) :
    (progressHook ev r).progress = min (r.progress + 10) 90 ∧
      (progressHook ev r).progress ≤ 90 := by
  have ht : effectiveTotal ev.total_bytes ev.total_bytes_estimate = none ∨
      effectiveTotal ev.total_bytes ev.total_bytes_estimate = some 0 := by
    rcases htb with h1 | h1 <;> rcases hte with h2 | h2 <;>
      simp [effectiveTotal, h1, h2]
  have hmain : (progressHook ev r).progress = min (r.progress + 10) 90 := by
    rcases ht with h | h <;>
      simp only [progressHook, hs, h, if_true, ite_true, Nat.lt_irrefl,
        if_false, ite_false]
  exact ⟨hmain, by rw [hmain]; exact min_le_right _ _⟩

/-- Claim C3 witness: previous progress 88 with unknown total gives
`min (88 + 10) 90 = 90`, not 98. -/
theorem C3_unknown_total_witness :
    (progressHook
        { status := "downloading", downloaded_bytes := some 10,
          total_bytes := none, total_bytes_estimate := none,
          speed := none, eta := none }
        { sampleJob with progress := 88 }).progress = 90 :=
  ((C3_unknown_total
      { status := "downloading", downloaded_bytes := some 10,
        total_bytes := none, total_bytes_estimate := none,
        speed := none, eta := none }
      { sampleJob with progress := 88 } rfl (Or.inl rfl) (Or.inl rfl)).1).trans
    (by norm_num [min_def])

/-- An all-keys-missing 'downloading' event, used against claim C6. -/
def sparseEvent : RawEvent :=
  { status := "downloading", downloaded_bytes := none, total_bytes := none,
    total_bytes_estimate := none, speed := none, eta := none }

/-- A record that already holds known byte/rate values, used against
claim C6. -/
def knownJob : JobRecord :=
  { sampleJob with
    progress := 4, downloaded_bytes := 42,
    total_bytes := some 1000, speed := some 500, eta := some 10 }

/-- Claim C6 counterexample: a 'downloading' event missing all four fields
erases every previously recorded value — `downloaded_bytes` falls back to 0,
and `total_bytes`, `speed`, `eta` are overwritten with `None`. -/
theorem C6_counterexample :
    knownJob.downloaded_bytes = 42 ∧ knownJob.total_bytes = some 1000 ∧
      knownJob.speed = some 500 ∧ knownJob.eta = some 10 ∧
      (progressHook sparseEvent knownJob).downloaded_bytes = 0 ∧
      (progressHook sparseEvent knownJob).total_bytes = none ∧
      (progressHook sparseEvent knownJob).speed = none ∧
      (progressHook sparseEvent knownJob).eta = none :=
  ⟨rfl, rfl, rfl, rfl, rfl, rfl, rfl, rfl⟩

/-- Claim C6 (amended): on every 'downloading' event the hook overwrites the
four fields unconditionally — `downloaded_bytes` with the event's value or 0,
`total_bytes` with the effective total (possibly the estimate, possibly
`None`), `speed` and `eta` with the event's value or `None`.  Values present
in the event are copied through verbatim, but missing values erase the
previously recorded ones rather than leaving them unchanged. -/
theorem C6_amended_overwrite (ev : RawEvent) (r : JobRecord)
    (hs : ev.status = "downloading") :
    (progressHook ev r).downloaded_bytes = ev.downloaded_bytes.getD 0 ∧
      (progressHook ev r).total_bytes
        = effectiveTotal ev.total_bytes ev.total_bytes_estimate ∧
      (progressHook ev r).speed = ev.speed ∧
      (progressHook ev r).eta = ev.eta := by
  simp only [progressHook, hs, if_true, ite_true]
  cases h : effectiveTotal ev.total_bytes ev.total_bytes_estimate with
  | none => simp
  | some t => by_cases hp : 0 < t <;> simp [hp]

/-- Claim C6 witness: an event carrying `speed` but no `eta` copies the speed
verbatim and erases the previously known eta. -/
theorem C6_amended_overwrite_witness :
    (progressHook
        { status := "downloading", downloaded_bytes := some 50,
          total_bytes := some 100, total_bytes_estimate := none,
          speed := some 999, eta := none } knownJob).downloaded_bytes
        = ((some 50 : Option Nat).getD 0) ∧
      (progressHook
        { status := "downloading", downloaded_bytes := some 50,
          total_bytes := some 100, total_bytes_estimate := none,
          speed := some 999, eta := none } knownJob).total_bytes
        = effectiveTotal (some 100) none ∧
      (progressHook
        { status := "downloading", downloaded_bytes := some 50,
          total_bytes := some 100, total_bytes_estimate := none,
          speed := some 999, eta := none } knownJob).speed = some 999 ∧
      (progressHook
        { status := "downloading", downloaded_bytes := some 50,
          total_bytes := some 100, total_bytes_estimate := none,
          speed := some 999, eta := none } knownJob).eta = none :=
  C6_amended_overwrite
    { status := "downloading", downloaded_bytes := some 50,
      total_bytes := some 100, total_bytes_estimate := none,
      speed := some 999, eta := none } knownJob rfl

/-- Association list with Python-dict update semantics: assignment to an
existing key replaces its value in place (insertion order preserved),
otherwise the pair is appended. -/
def dictSet (m : List (String × Nat)) (k : String) (v : Nat) :
    List (String × Nat) :=
  match m with
  | [] => [(k, v)]
  | (k', v') :: rest =>
      if k' = k then (k, v) :: rest else (k', v') :: dictSet rest k v

/-- Python dict lookup `m.get(k)` over the association list. -/
def dictGet (m : List (String × Nat)) (k : String) : Option Nat :=
  match m with
  | [] => none
  | (k', v') :: rest => if k' = k then some v' else dictGet rest k

/-- State of the one `DownloadManager` instance.  Job dicts are mutable
Python objects aliased from several places (the registry, the worker, every
caller of `get_download`), so they live on an explicit heap: an address is an
index into `heap`, and `downloads` maps a job id to the address of its
record.  `download_dir` is the manager's current output directory; the
executor performs no state mutation of its own and is not modelled as data. -/
structure DMState where
  heap : List JobRecord
  downloads : List (String × Nat)
  download_dir : String
  deriving DecidableEq

/-- Dereference a record address. -/
def readAddr (st : DMState) (a : Nat) : Option JobRecord := st.heap[a]?

/-- Mutate in place the record object at address `a` (a Python dict update
through any alias of that object). -/
def writeAddr (st : DMState) (a : Nat) (r : JobRecord) : DMState :=
  { st with heap := st.heap.set a r }

/-- The record the registry currently associates with a job id. -/
def readJob (st : DMState) (id : String) : Option JobRecord :=
  (dictGet st.downloads id).bind fun a => readAddr st a

/-- Hexadecimal digit character for a value below 16. -/
def hexDigit (n : Nat) : Char :=
  if n < 10 then Char.ofNat (48 + n) else Char.ofNat (87 + n)

/-- Models `hashlib.md5(s.encode()).hexdigest()[:8]` as used by
`start_download` (`app.py` line 112): an 8-hex-character digest that is a
deterministic pure function of the input string.  The claims about job ids
depend only on the digest being such a function — equal input strings give
equal ids — not on MD5's compression rounds, so a 32-bit fold stands in for
the MD5 internals. -/
def md5hex8 (s : String) : String :=
  let h := s.data.foldl (fun a c => (a * 33 + c.toNat) % 4294967296) 5381
  String.mk ((List.range 8).map fun i => hexDigit (h / 16 ^ (7 - i) % 16))

/-- The `DownloadManager.start_download` method (`app.py` lines 110-134):
derives the id from url, format_id and the current time (the filename and any
counter do not participate), inserts a fresh `queued` record into the
registry — a plain dict assignment, which replaces any record already stored
under that id — submits `_download_worker` to the executor (the submission
itself does not change manager state; the worker's own effect is modelled by
the trace semantics below), and returns the id.  `t` stands for the
`time.time()` / `datetime.now()` readings of the call. -/
def start_download (url format_id filename : String) (t : Nat)
    (st : DMState) : String × DMState :=
  let download_id := md5hex8 (url ++ format_id ++ toString t)
  let r := mkJobRecord download_id url format_id filename t
  (download_id,
    { st with heap := st.heap ++ [r],
              downloads := dictSet st.downloads download_id st.heap.length })

/-- The `DownloadManager.get_download` method (`app.py` lines 210-212):
`self.downloads.get(download_id, {})`.  It returns the stored dict object
itself — an alias, modelled by its heap address — and the empty-dict default
`{}` is the falsy not-found sentinel, modelled as `none`. -/
def get_download (st : DMState) (download_id : String) : Option Nat :=
  dictGet st.downloads download_id

/-- Responses of the `GET /api/download/<id>` route. -/
inductive StatusResp where
  | record (r : JobRecord)
  | notFound
  deriving DecidableEq

/-- The `MediaDownloaderHandler.get_download_status` method (`app.py` lines
1881-1893): fetches the job via `get_download`; a falsy result (the empty
dict) is answered with the 404 body `Download not found`, otherwise the
record's current contents are serialized as the response.  The handler
mutates nothing, so the manager state is returned unchanged. -/
def get_download_status (st : DMState) (download_id : String) :
    StatusResp × DMState :=
  match get_download st download_id with
  | none => (StatusResp.notFound, st)
  | some a =>
      match readAddr st a with
      | some r => (StatusResp.record r, st)
      | none => (StatusResp.notFound, st)

/-- Parsed JSON body of a `POST /api/download` request; a key absent from
the body is `none`. -/
structure DownloadRequest where
  url : Option String
  format_id : Option String
  filename : Option String
  deriving DecidableEq

/-- Python truthiness of `data.get(k)` for a string field: `None` and the
empty string are falsy. -/
def pyTruthy (o : Option String) : Bool :=
  match o with
  | none => false
  | some s => !(s == "")

/-- Responses of the `POST /api/download` route. -/
inductive DownloadResp where
  | started (download_id : String)
  | badRequest (msg : String)
  deriving DecidableEq

/-- The `MediaDownloaderHandler.handle_download` method (`app.py` lines
1829-1854): `url = data.get('url')`, `format_id = data.get('format_id')`,
`filename = data.get('filename', 'download')`; `if not url or not format_id`
answers 400 without touching the manager, otherwise `start_download` runs and
its id is returned in a success body. -/
def handle_download (req : DownloadRequest) (t : Nat) (st : DMState) :
    DownloadResp × DMState :=
  let filename := req.filename.getD "download"
  if pyTruthy req.url && pyTruthy req.format_id then
    let p := start_download (req.url.getD "") (req.format_id.getD "") filename t st
    (DownloadResp.started p.1, p.2)
  else (DownloadResp.badRequest "URL and format_id are required", st)

/-- Default download directory `Path.home() / "Downloads" /
"MediaDownloader"` (`app.py` line 69). -/
def defaultDownloadDir : String := "~/Downloads/MediaDownloader"

/-- The `DownloadManager._init` method (`app.py` lines 65-74): a fresh empty
registry, a new executor, the default download directory; `load_settings`
falls back to exactly these values when the settings file is absent or
unreadable (the model takes that absent-file path — no claim depends on the
file's contents). -/
def dmInit : DMState :=
  { heap := [], downloads := [], download_dir := defaultDownloadDir }

/-- The `DownloadManager.__new__` method (`app.py` lines 59-63): the class
variable `_instance` (the argument) is filled with a freshly `_init`-ed
instance when it is `None`, and the stored instance is returned.  The result
pairs the returned instance with the new class-variable value.  The class
defines no `__init__`, so nothing else runs on construction. -/
def downloadManagerNew (inst : Option DMState) : DMState × Option DMState :=
  match inst with
  | none => (dmInit, some dmInit)
  | some m => (m, some m)

/-- The `MediaDownloaderHandler.__init__` method (`app.py` lines 1703-1705):
each request handler obtains its manager by evaluating `DownloadManager()`. -/
def handlerInitMgr (inst : Option DMState) : DMState × Option DMState :=
  downloadManagerNew inst

/-- Lookup after a dict assignment to the same key yields the new value. -/
theorem dictGet_dictSet_self (m : List (String × Nat)) (k : String) (v : Nat) :
    dictGet (dictSet m k v) k = some v := by
  induction m with
  | nil => simp [dictSet, dictGet]
  | cons p rest ih =>
      obtain ⟨k', v'⟩ := p
      by_cases h : k' = k
      · simp [dictSet, dictGet, h]
      · simp [dictSet, dictGet, h, ih]

/-- A dict assignment to a key that is already present replaces the entry in
place: the number of entries does not change. -/
theorem dictSet_length_existing (m : List (String × Nat)) (k : String)
    (v : Nat) (h : dictGet m k ≠ none) :
    (dictSet m k v).length = m.length := by
  induction m with
  | nil => simp [dictGet] at h
  | cons p rest ih =>
      obtain ⟨k', v'⟩ := p
      by_cases hk : k' = k
      · simp [dictSet, hk]
      · have h' : dictGet rest k ≠ none := by
          simpa [dictGet, hk] using h
        simp [dictSet, dictGet, hk, ih h']

/-- Claim C10: constructing the `DownloadManager` is idempotent — evaluating
the constructor a second time returns the same instance as the first and
leaves the class state unchanged, and evaluating it against an existing
instance (as every `MediaDownloaderHandler.__init__` does) returns that
instance with its registry, heap and download directory untouched: no
re-initialization happens after the first construction. -/
theorem C10_singleton_idempotent (c : Option DMState) :
    (downloadManagerNew (downloadManagerNew c).2).1 = (downloadManagerNew c).1 ∧
      (downloadManagerNew (downloadManagerNew c).2).2 = (downloadManagerNew c).2 ∧
      ∀ m : DMState, handlerInitMgr (some m) = (m, some m) := by
  refine ⟨?_, ?_, fun m => rfl⟩ <;> cases c <;> rfl

/-- Claim C9: `get_download` on an id absent from the registry returns the
falsy not-found sentinel, never a stored record, and the status route answers
`Download not found` (404) with the manager state unchanged. -/
theorem C9_unknown_id (st : DMState) (id : String)
    (h : dictGet st.downloads id = none) :
    get_download st id = none ∧
      get_download_status st id = (StatusResp.notFound, st) := by
  refine ⟨h, ?_⟩
  simp [get_download_status, get_download, h]

/-- Claim C9 witness: looking up an id in the fresh manager state. -/
theorem C9_unknown_id_witness :
    get_download dmInit "deadbeef" = none ∧
      get_download_status dmInit "deadbeef" = (StatusResp.notFound, dmInit) :=
  C9_unknown_id dmInit "deadbeef" rfl

/-- Claim C5 counterexample: a request whose `filename` is present but empty
is not rejected — `handle_download` only tests url and format_id, so a job
record with an empty filename is created and its id is returned. -/
theorem C5_counterexample :
    (handle_download
        { url := some "http://x", format_id := some "22", filename := some "" }
        7 dmInit).1
      = DownloadResp.started (md5hex8 ("http://x" ++ "22" ++ toString 7)) ∧
      ((handle_download
        { url := some "http://x", format_id := some "22", filename := some "" }
        7 dmInit).2).downloads.length = 1 ∧
      readJob
        (handle_download
          { url := some "http://x", format_id := some "22", filename := some "" }
          7 dmInit).2
        (md5hex8 ("http://x" ++ "22" ++ toString 7))
      = some (mkJobRecord (md5hex8 ("http://x" ++ "22" ++ toString 7))
          "http://x" "22" "" 7) :=
  ⟨rfl, rfl, rfl⟩

/-- Claim C5 (amended): the validation lives at the HTTP boundary and covers
only url and format_id: whenever either is absent or empty the request fails
with the 400 body `URL and format_id are required`, no job record is created
and the manager state is unchanged; an empty filename, however, is not
validated and does not prevent job creation. -/
theorem C5_amended_boundary_validation (req : DownloadRequest) (t : Nat)
    (st : DMState) (h : (pyTruthy req.url && pyTruthy req.format_id) = false) :
    handle_download req t st
      = (DownloadResp.badRequest "URL and format_id are required", st) := by
  simp [handle_download, h]

/-- Claim C5 witness: a request with no url at all is rejected with the
manager untouched. -/
theorem C5_amended_boundary_validation_witness :
    handle_download { url := none, format_id := some "22", filename := some "x" }
        0 dmInit
      = (DownloadResp.badRequest "URL and format_id are required", dmInit) :=
  C5_amended_boundary_validation
    { url := none, format_id := some "22", filename := some "x" } 0 dmInit rfl

/-- Claim C7 counterexample: two `start_download` calls with the same url,
format_id and timestamp — the filename does not enter the hash — return the
same id; the second dict assignment overwrites the first record, leaving a
single registry entry that holds the second call's data. -/
theorem C7_counterexample :
    (start_download "u" "f" "n2" 5 (start_download "u" "f" "n1" 5 dmInit).2).1
      = (start_download "u" "f" "n1" 5 dmInit).1 ∧
      ((start_download "u" "f" "n2" 5
          (start_download "u" "f" "n1" 5 dmInit).2).2).downloads.length = 1 ∧
      readJob
        (start_download "u" "f" "n2" 5 (start_download "u" "f" "n1" 5 dmInit).2).2
        (start_download "u" "f" "n1" 5 dmInit).1
      = some (mkJobRecord (start_download "u" "f" "n1" 5 dmInit).1 "u" "f" "n2" 5) :=
  ⟨rfl, rfl, rfl⟩

/-- Claim C7 (amended): the job id is a deterministic digest of url,
format_id and the call's timestamp only, so two calls sharing those three
collide: the second call returns the first call's id, the registry does not
grow (the entry is replaced in place rather than a second one being added),
and the registry afterwards holds the second call's record under that id. -/
theorem C7_amended_deterministic_id (u f n1 n2 : String) (t : Nat)
    (st : DMState) :
    (start_download u f n2 t (start_download u f n1 t st).2).1
      = (start_download u f n1 t st).1 ∧
      ((start_download u f n2 t (start_download u f n1 t st).2).2).downloads.length
        = ((start_download u f n1 t st).2).downloads.length ∧
      readJob (start_download u f n2 t (start_download u f n1 t st).2).2
          (start_download u f n1 t st).1
        = some (mkJobRecord (start_download u f n1 t st).1 u f n2 t) := by
  refine ⟨rfl, ?_, ?_⟩
  · simp only [start_download]
    apply dictSet_length_existing
    rw [dictGet_dictSet_self]
    exact fun hc => Option.noConfusion hc
  · simp only [start_download, readJob, readAddr]
    rw [dictGet_dictSet_self]
    simp only [Option.some_bind]
    exact List.getElem?_concat_length _ _

/-- Manager state holding one job, used against claim C4. -/
def c4State : DMState := (start_download "u" "f" "vid" 3 dmInit).2

/-- The id of the job held by `c4State`. -/
def c4Id : String := (start_download "u" "f" "vid" 3 dmInit).1

/-- A mutation a caller could apply to the dict object handed out by
`get_download`. -/
def c4Mutated : JobRecord := { mkJobRecord c4Id "u" "f" "vid" 3 with status := "hacked" }

/-- Claim C4 counterexample: `get_download` returns the registry's record
object itself (address 0 here), not a copy: writing through that reference
changes what the registry subsequently reads, so the value handed to the
caller is not an immutable snapshot. -/
theorem C4_counterexample :
    get_download c4State c4Id = some 0 ∧
      readJob c4State c4Id = some (mkJobRecord c4Id "u" "f" "vid" 3) ∧
      readJob (writeAddr c4State 0 c4Mutated) c4Id = some c4Mutated ∧
      c4Mutated ≠ mkJobRecord c4Id "u" "f" "vid" 3 := by
  refine ⟨rfl, rfl, rfl, ?_⟩
  intro h
  have hs : c4Mutated.status = "hacked" := rfl
  rw [h] at hs
  exact absurd hs (by decide)

/-- Claim C4 (amended): `get_download` hands out the registry's own reference
rather than a copy: the address it returns is exactly the registry's entry,
a caller's write through that reference is visible to every later registry
read, and a worker's write to the registry's record is visible through the
caller's previously obtained reference. -/
theorem C4_amended_alias (st : DMState) (id : String) (a : Nat)
    (r' : JobRecord) (h : get_download st id = some a)
    (ha : a < st.heap.length) :
    dictGet st.downloads id = some a ∧
      readJob (writeAddr st a r') id = some r' ∧
      readAddr (writeAddr st a r') a = some r' := by
  refine ⟨h, ?_, ?_⟩
  · simp only [readJob, writeAddr]
    rw [show dictGet st.downloads id = some a from h]
    simp [readAddr, List.getElem?_set_eq_of_lt, ha]
  · simp [readAddr, writeAddr, List.getElem?_set_eq_of_lt, ha]

/-- Claim C4 witness: the alias behaviour evaluated on the one-job state. -/
theorem C4_amended_alias_witness :
    dictGet c4State.downloads c4Id = some 0 ∧
      readJob (writeAddr c4State 0 c4Mutated) c4Id = some c4Mutated ∧
      readAddr (writeAddr c4State 0 c4Mutated) 0 = some c4Mutated :=
  C4_amended_alias c4State c4Id 0 c4Mutated rfl (by decide)

/-- A single mutation of the job dict performed inside `_download_worker`
(`app.py` lines 136-187).  The worker mutates the record one key at a time —
each constructor below is one Python assignment — and `hookEvent` is one
invocation of the progress hook during `ydl.download`. -/
inductive WStep where
  | setStatus (s : String)
  | setProgress (p : ℚ)
  | setCompletedAt (t : Nat)
  | setError (msg : String)
  | setFilepath (fp : String)
  | hookEvent (ev : RawEvent)
  deriving DecidableEq

/-- Effect of one worker step on the record. -/
def applyStep (s : WStep) (r : JobRecord) : JobRecord :=
  match s with
  | WStep.setStatus st => { r with status := st }
  | WStep.setProgress p => { r with progress := p }
  | WStep.setCompletedAt t => { r with completed_at := some t }
  | WStep.setError msg => { r with error := some msg }
  | WStep.setFilepath fp => { r with filepath := some fp }
  | WStep.hookEvent ev => progressHook ev r

/-- How `_download_worker` ends: `success found t` is the normal path —
`found` is the first glob match recorded into `filepath`, if any, and `t` the
completion timestamp — while `failure msg t` is the `except Exception` path,
entered after whatever progress events had been delivered before the
exception.  The first possible raising point lies after the
`status = 'downloading'` assignment, and no statement after the
`status = 'completed'` assignment can raise. -/
inductive WOutcome where
  | success (found : Option String) (t : Nat)
  | failure (msg : String) (t : Nat)
  deriving DecidableEq

/-- The completion timestamp the worker writes for this outcome. -/
def WOutcome.time : WOutcome → Nat
  | WOutcome.success _ t => t
  | WOutcome.failure _ t => t

/-- The terminal status the worker writes for this outcome. -/
def WOutcome.finalStatus : WOutcome → String
  | WOutcome.success _ _ => "completed"
  | WOutcome.failure _ _ => "error"

/-- The sequence of record mutations `_download_worker` performs, in source
order (`app.py` lines 136-187): `status = 'downloading'` first, then the hook
invocations made during `ydl.download`, then either
`filepath` (when the glob found a file) / `status = 'completed'` /
`progress = 100` / `completed_at`, or `status = 'error'` / `error` /
`completed_at`. -/
def workerTrace (events : List RawEvent) (outcome : WOutcome) : List WStep :=
  WStep.setStatus "downloading" ::
    (events.map WStep.hookEvent ++
      match outcome with
      | WOutcome.success found t =>
          (match found with
           | some fp => [WStep.setFilepath fp]
           | none => []) ++
            [WStep.setStatus "completed", WStep.setProgress 100,
              WStep.setCompletedAt t]
      | WOutcome.failure msg t =>
          [WStep.setStatus "error", WStep.setError msg,
            WStep.setCompletedAt t])

/-- Every record state a concurrent reader could observe: the record before
the trace runs and the record after each step. -/
def observations (r : JobRecord) : List WStep → List JobRecord
  | [] => [r]
  | s :: tr => r :: observations (applyStep s r) tr

/-- The record left at the end of a step sequence. -/
def runWorker (r : JobRecord) (tr : List WStep) : JobRecord :=
  tr.foldl (fun a s => applyStep s a) r

/-- The (status, completed_at) pair of a record — the projection the
lifecycle claims are about. -/
def statusCa (r : JobRecord) : String × Option Nat := (r.status, r.completed_at)

/-- The progress hook never touches the status or the write-once fields. -/
theorem progressHook_preserves (ev : RawEvent) (r : JobRecord) :
    (progressHook ev r).status = r.status ∧
      (progressHook ev r).completed_at = r.completed_at ∧
      (progressHook ev r).error = r.error ∧
      (progressHook ev r).filepath = r.filepath := by
  simp only [progressHook]
  by_cases hs : ev.status = "downloading"
  · simp only [hs, if_true, ite_true]
    cases h : effectiveTotal ev.total_bytes ev.total_bytes_estimate with
    | none => simp
    | some t => by_cases hp : 0 < t <;> simp [hp]
  · simp [hs]

/-- Hook invocations leave the (status, completed_at) pair fixed: across a
hook segment followed by arbitrary steps, the observed pairs are a block of
the starting record's pair followed by the remaining observations taken from
some record that agrees with the start on both fields. -/
theorem observations_hooks_statusCa (events : List RawEvent) (r : JobRecord)
    (rest : List WStep) :
    ∃ r' : JobRecord, r'.status = r.status ∧
      r'.completed_at = r.completed_at ∧
      (observations r (events.map WStep.hookEvent ++ rest)).map statusCa
        = List.replicate events.length (statusCa r) ++
            (observations r' rest).map statusCa := by
  induction events generalizing r with
  | nil => exact ⟨r, rfl, rfl, by simp⟩
  | cons ev evs ih =>
      obtain ⟨r', h1, h2, h3⟩ := ih (progressHook ev r)
      refine ⟨r', ?_, ?_, ?_⟩
      · rw [h1, (progressHook_preserves ev r).1]
      · rw [h2, (progressHook_preserves ev r).2.1]
      · have hst : statusCa (progressHook ev r) = statusCa r := by
          simp [statusCa, (progressHook_preserves ev r).1,
            (progressHook_preserves ev r).2.1]
        simp only [List.map_cons, List.cons_append, observations, applyStep,
          List.length_cons, List.replicate_succ, List.append_eq]
        rw [h3, hst]

/-- The (status, completed_at) pairs observed across the worker's terminal
section, starting from the post-hook record's pair. -/
def terminalPairs (outcome : WOutcome) (ca : Option Nat) :
    List (String × Option Nat) :=
  ("downloading", ca) ::
    match outcome with
    | WOutcome.success found t =>
        (match found with
         | some _ => [("downloading", ca)]
         | none => []) ++
          [("completed", ca), ("completed", ca), ("completed", some t)]
    | WOutcome.failure _ t => [("error", ca), ("error", ca), ("error", some t)]

/-- Closed form of the (status, completed_at) pairs a reader can observe
along one worker execution. -/
theorem observations_workerTrace_statusCa (events : List RawEvent)
    (outcome : WOutcome) (r0 : JobRecord) :
    (observations r0 (workerTrace events outcome)).map statusCa
      = (r0.status, r0.completed_at) ::
          (List.replicate events.length ("downloading", r0.completed_at) ++
            terminalPairs outcome r0.completed_at) := by
  obtain ⟨r', h1, h2, h3⟩ :=
    observations_hooks_statusCa events { r0 with status := "downloading" }
      (match outcome with
       | WOutcome.success found t =>
           (match found with
            | some fp => [WStep.setFilepath fp]
            | none => []) ++
             [WStep.setStatus "completed", WStep.setProgress 100,
               WStep.setCompletedAt t]
       | WOutcome.failure msg t =>
           [WStep.setStatus "error", WStep.setError msg,
             WStep.setCompletedAt t])
  simp only [workerTrace, observations, applyStep, List.map_cons]
  rw [h3]
  have hpair : statusCa { r0 with status := "downloading" }
      = ("downloading", r0.completed_at) := rfl
  rw [hpair]
  congr 1
  rcases outcome with ⟨found, t⟩ | ⟨msg, t⟩
  · rcases found with _ | fp <;>
      simp [observations, applyStep, statusCa, terminalPairs, h1, h2]
  · simp [observations, applyStep, statusCa, terminalPairs, h1, h2]

/-- Allowed consecutive pair of sampled statuses: a terminal status never
changes, and `downloading` never steps back to `queued`. -/
def statusStepOK (a b : String) : Prop :=
  ((a = "completed" ∨ a = "error") → b = a) ∧ (a = "downloading" → b ≠ "queued")

instance : DecidableRel statusStepOK := fun a b =>
  inferInstanceAs (Decidable
    (((a = "completed" ∨ a = "error") → b = a) ∧ (a = "downloading" → b ≠ "queued")))

/-- A block of equal elements can be prepended to a chain starting at that
element, provided the relation is reflexive at it. -/
theorem chain'_replicate_append {α : Type} (R : α → α → Prop) (n : Nat)
    (s : α) (l : List α) (h : List.Chain' R (s :: l)) (hss : R s s) :
    List.Chain' R (List.replicate n s ++ s :: l) := by
  induction n with
  | zero => simpa using h
  | succ m ih =>
      rw [List.replicate_succ, List.cons_append, List.chain'_cons']
      refine ⟨?_, ih⟩
      intro y hy
      have hh : (List.replicate m s ++ s :: l).head? = some s := by
        cases m <;> simp [List.replicate_succ]
      rw [hh] at hy
      simp only [Option.mem_some_iff] at hy
      subst hy
      exact hss

/-- The head of a replicate block followed by a cons of the same element. -/
theorem head?_replicate_cons {α : Type} (n : Nat) (s : α) (l : List α) :
    (List.replicate n s ++ s :: l).head? = some s := by
  cases n <;> simp [List.replicate_succ]

/-- Prepending `queued` to a block of `downloading` samples followed by a
legal chain from `downloading` stays a legal chain. -/
theorem chain'_queued_block (n : Nat) (l : List String)
    (h : List.Chain' statusStepOK ("downloading" :: l)) :
    List.Chain' statusStepOK
      ("queued" :: (List.replicate n "downloading" ++ "downloading" :: l)) := by
  rw [List.chain'_cons']
  refine ⟨?_, chain'_replicate_append _ n _ l h (by simp [statusStepOK])⟩
  intro y hy
  rw [head?_replicate_cons] at hy
  simp only [Option.mem_some_iff] at hy
  subst hy
  simp [statusStepOK]

/-- Claim C2: along every worker execution — any sequence of progress events,
any outcome — started on a `queued` record, consecutive observed statuses
never leave `completed` or `error`, and never step from `downloading` back to
`queued`. -/
theorem C2_status_monotone (events : List RawEvent) (outcome : WOutcome)
    (r0 : JobRecord) (h : r0.status = "queued") :
    List.Chain' statusStepOK
      ((observations r0 (workerTrace events outcome)).map JobRecord.status) := by
  have hmap : (observations r0 (workerTrace events outcome)).map JobRecord.status
      = ((observations r0 (workerTrace events outcome)).map statusCa).map
          Prod.fst := by
    rw [List.map_map]
    rfl
  rw [hmap, observations_workerTrace_statusCa events outcome r0, h]
  rcases outcome with ⟨found, t⟩ | ⟨msg, t⟩
  · rcases found with _ | fp <;>
      · simp only [terminalPairs, List.map_cons, List.map_append,
          List.map_replicate, List.map_nil, List.nil_append, List.cons_append]
        exact chain'_queued_block _ _
          (by simp [List.chain'_cons, List.chain'_singleton, statusStepOK])
  · simp only [terminalPairs, List.map_cons, List.map_append,
      List.map_replicate, List.map_nil, List.cons_append]
    exact chain'_queued_block _ _
      (by simp [List.chain'_cons, List.chain'_singleton, statusStepOK])

/-- Claim C2 witness: a concrete run — one failing download with no progress
events — sampled from a fresh `queued` record. -/
theorem C2_status_monotone_witness :
    List.Chain' statusStepOK
      ((observations sampleJob
          (workerTrace [] (WOutcome.failure "boom" 9))).map JobRecord.status) :=
  C2_status_monotone [] (WOutcome.failure "boom" 9) sampleJob rfl

/-- Claim C8 counterexample: sampled at the boundary between the
`status = 'completed'` assignment and the `completed_at` assignment of a real
worker run, the record has a terminal status while `completed_at` is still
unset — the claimed biconditional fails at that observable point. -/
theorem C8_counterexample :
    ((observations sampleJob (workerTrace [] (WOutcome.success none 5))).map
        statusCa)[2]? = some ("completed", none) := rfl

/-- Folding a run does nothing on the empty step list. -/
theorem runWorker_nil (r : JobRecord) : runWorker r [] = r := rfl

/-- Folding a run over a cons. -/
theorem runWorker_cons (s : WStep) (tr : List WStep) (r : JobRecord) :
    runWorker r (s :: tr) = runWorker (applyStep s r) tr := rfl

/-- Folding a run over an append. -/
theorem runWorker_append (l1 l2 : List WStep) (r : JobRecord) :
    runWorker r (l1 ++ l2) = runWorker (runWorker r l1) l2 := by
  simp [runWorker, List.foldl_append]

/-- A hook segment does not change the status or completion stamp of the
folded record. -/
theorem runWorker_hooks (events : List RawEvent) (r : JobRecord) :
    (runWorker r (events.map WStep.hookEvent)).status = r.status ∧
      (runWorker r (events.map WStep.hookEvent)).completed_at
        = r.completed_at := by
  induction events generalizing r with
  | nil => exact ⟨rfl, rfl⟩
  | cons ev evs ih =>
      have h := ih (progressHook ev r)
      constructor
      · show (runWorker (progressHook ev r)
            (evs.map WStep.hookEvent)).status = r.status
        rw [h.1, (progressHook_preserves ev r).1]
      · show (runWorker (progressHook ev r)
            (evs.map WStep.hookEvent)).completed_at = r.completed_at
        rw [h.2, (progressHook_preserves ev r).2.1]

/-- The worker's final record carries the outcome's terminal status and the
completion stamp. -/
theorem runWorker_workerTrace (events : List RawEvent) (outcome : WOutcome)
    (r0 : JobRecord) :
    (runWorker r0 (workerTrace events outcome)).completed_at
        = some outcome.time ∧
      (runWorker r0 (workerTrace events outcome)).status
        = outcome.finalStatus := by
  rcases outcome with ⟨found, t⟩ | ⟨msg, t⟩
  · rcases found with _ | fp <;>
      · simp only [workerTrace, WOutcome.time, WOutcome.finalStatus,
          List.nil_append, List.cons_append, runWorker_cons, runWorker_append,
          runWorker_nil, applyStep]
        constructor <;> trivial
  · simp only [workerTrace, WOutcome.time, WOutcome.finalStatus,
      List.cons_append, runWorker_cons, runWorker_append, runWorker_nil,
      applyStep]
    constructor <;> trivial

/-- Claim C8 (amended): along every worker execution from a record whose
`completed_at` is unset, (i) once `completed_at` is observed set, no later
observation differs from it — in fact it is only ever set by the very last
mutation of the run; (ii) every observation with `completed_at` set has a
terminal status; (iii) the run ends with `completed_at = outcome.time` and
the outcome's terminal status.  The converse direction of the claimed
biconditional — terminal status implies `completed_at` set — does not hold at
the sampling points between the terminal-status write and the `completed_at`
write. -/
theorem C8_amended_completed_at (events : List RawEvent) (outcome : WOutcome)
    (r0 : JobRecord) (hca : r0.completed_at = none) :
    List.Chain' (fun p q : String × Option Nat => p.2 ≠ none → q = p)
      ((observations r0 (workerTrace events outcome)).map statusCa) ∧
      (∀ x ∈ observations r0 (workerTrace events outcome),
        x.completed_at ≠ none →
          x.status = "completed" ∨ x.status = "error") ∧
      (runWorker r0 (workerTrace events outcome)).completed_at
        = some outcome.time ∧
      (runWorker r0 (workerTrace events outcome)).status
        = outcome.finalStatus := by
  have hclosed := observations_workerTrace_statusCa events outcome r0
  rw [hca] at hclosed
  refine ⟨?_, ?_, (runWorker_workerTrace events outcome r0).1,
    (runWorker_workerTrace events outcome r0).2⟩
  · rw [hclosed, List.chain'_cons']
    constructor
    · intro y hy hne
      exact absurd rfl hne
    · rcases outcome with ⟨found, t⟩ | ⟨msg, t⟩
      · rcases found with _ | fp <;>
          · simp only [terminalPairs, List.cons_append, List.nil_append]
            exact chain'_replicate_append _ events.length _ _
              (by simp [List.chain'_cons, List.chain'_singleton])
              (fun hne => absurd rfl hne)
      · simp only [terminalPairs, List.cons_append]
        exact chain'_replicate_append _ events.length _ _
          (by simp [List.chain'_cons, List.chain'_singleton])
          (fun hne => absurd rfl hne)
  · intro x hx hne
    have hmem : statusCa x
        ∈ (observations r0 (workerTrace events outcome)).map statusCa :=
      List.mem_map_of_mem _ hx
    rw [hclosed] at hmem
    rcases outcome with ⟨found, t⟩ | ⟨msg, t⟩
    · rcases found with _ | fp
      · simp only [terminalPairs, List.cons_append, List.nil_append,
          List.mem_cons, List.mem_append, List.mem_replicate,
          List.mem_nil_iff, or_false, statusCa, Prod.mk.injEq] at hmem
        rcases hmem with ⟨-, h⟩ | ⟨-, -, h⟩ | ⟨-, h⟩ | ⟨h1, -⟩ | ⟨h1, -⟩ | ⟨h1, -⟩
        · exact absurd h hne
        · exact absurd h hne
        · exact absurd h hne
        · exact Or.inl h1
        · exact Or.inl h1
        · exact Or.inl h1
      · simp only [terminalPairs, List.cons_append, List.nil_append,
          List.mem_cons, List.mem_append, List.mem_replicate,
          List.mem_nil_iff, or_false, statusCa, Prod.mk.injEq] at hmem
        rcases hmem with
          ⟨-, h⟩ | ⟨-, -, h⟩ | ⟨-, h⟩ | ⟨-, h⟩ | ⟨h1, -⟩ | ⟨h1, -⟩ | ⟨h1, -⟩
        · exact absurd h hne
        · exact absurd h hne
        · exact absurd h hne
        · exact absurd h hne
        · exact Or.inl h1
        · exact Or.inl h1
        · exact Or.inl h1
    · simp only [terminalPairs, List.cons_append, List.nil_append,
        List.mem_cons, List.mem_append, List.mem_replicate,
        List.mem_nil_iff, or_false, statusCa, Prod.mk.injEq] at hmem
      rcases hmem with ⟨-, h⟩ | ⟨-, -, h⟩ | ⟨-, h⟩ | ⟨h1, -⟩ | ⟨h1, -⟩ | ⟨h1, -⟩
      · exact absurd h hne
      · exact absurd h hne
      · exact absurd h hne
      · exact Or.inr h1
      · exact Or.inr h1
      · exact Or.inr h1

/-- Claim C8 witness: a concrete failing run with no progress events,
started from a fresh record. -/
theorem C8_amended_completed_at_witness :
    List.Chain' (fun p q : String × Option Nat => p.2 ≠ none → q = p)
      ((observations sampleJob
          (workerTrace [] (WOutcome.failure "oops" 9))).map statusCa) ∧
      (∀ x ∈ observations sampleJob (workerTrace [] (WOutcome.failure "oops" 9)),
        x.completed_at ≠ none →
          x.status = "completed" ∨ x.status = "error") ∧
      (runWorker sampleJob
          (workerTrace [] (WOutcome.failure "oops" 9))).completed_at
        = some (WOutcome.failure "oops" 9).time ∧
      (runWorker sampleJob
          (workerTrace [] (WOutcome.failure "oops" 9))).status
        = (WOutcome.failure "oops" 9).finalStatus :=
  C8_amended_completed_at [] (WOutcome.failure "oops" 9) sampleJob rfl
